import Mathlib

/-!
Verification of the Treasury Curve Screener engine (screener_v3_chat.py).

The pandas pipeline in `load_data` is embedded as per-index functions over the
aligned price histories `zn zt : List ℚ`.  A pandas `NaN` entry is modelled as
`none : Option ℚ` (respectively `Option ℝ`); comparisons against `NaN` are
`false`, and arithmetic on `NaN` propagates `NaN`, exactly as in the source's
float semantics.  The only irrational step of the pipeline, the square root
inside the rolling standard deviation, is taken in `ℝ`; everything before it
is exact rational arithmetic.
-/

/- ===== module-level configuration constants (source lines 11-19) ===== -/

def ZN_WEIGHT : ℚ := 1
def ZT_WEIGHT : ℚ := 3
def Z_LOOKBACK : ℕ := 120
def Z_ENTRY : ℚ := 3/2
def Z_STOP : ℚ := 11/5
def ATR_THRESHOLD : ℚ := 13/100
def SLOPE_LOOKBACK : ℕ := 5
def SLOPE_CAP : ℚ := 1/10
def REAL_WORLD_MULTIPLIER : ℚ := 2000

/- ===== NaN-propagating arithmetic on Option values ===== -/

/-- Subtraction with `NaN` (= `none`) propagation. -/
def osub : Option ℚ → Option ℚ → Option ℚ
  | some a, some b => some (a - b)
  | _, _ => none

/-- Addition on real-valued series with `NaN` propagation. -/
def oaddR : Option ℝ → Option ℝ → Option ℝ
  | some a, some b => some (a + b)
  | _, _ => none

/-- Subtraction on real-valued series with `NaN` propagation. -/
def osubR : Option ℝ → Option ℝ → Option ℝ
  | some a, some b => some (a - b)
  | _, _ => none

/-- Multiplication on real-valued series with `NaN` propagation. -/
def omulR : Option ℝ → Option ℝ → Option ℝ
  | some a, some b => some (a * b)
  | _, _ => none

open Classical

/-- Division on real-valued series with `NaN` propagation.  A zero denominator
yields `none`: at both use sites of division in the source (the z-score and
`exec_per_signal`) a zero denominator forces a zero numerator, so the float
result there is `0.0/0.0 = NaN`. -/
noncomputable def odivR : Option ℝ → Option ℝ → Option ℝ
  | some a, some b => if b = 0 then none else some (a / b)
  | _, _ => none

/-- Cast a rational series entry into the real-valued world. -/
def oc (q : Option ℚ) : Option ℝ := q.map (fun x => (x : ℝ))

/-- Comparison `a < b` on series entries; any comparison involving `NaN` is `false`,
as for float `NaN` in the source. -/
def oltB : Option ℚ → Option ℚ → Bool
  | some a, some b => decide (a < b)
  | _, _ => false

/-- Comparison `a > b` on series entries, `false` on `NaN`. -/
def ogtB (a b : Option ℚ) : Bool := oltB b a

/- ===== rolling-window combinators (pandas `.rolling`/`.diff`) ===== -/

/-- The values of a trailing window, `NaN` entries replaced by `0`
(only read when the window is `NaN`-free). -/
def vals (w : List (Option ℚ)) : List ℚ := w.map (fun o => o.getD 0)

/-- Mean of a window: defined only when every entry is present
(pandas `rolling(n).mean()` with the default `min_periods = n`). -/
def omean (w : List (Option ℚ)) : Option ℚ :=
  if w.all Option.isSome then some ((vals w).sum / (w.length : ℚ)) else none

/-- Sample variance (`ddof = 1`, as in pandas `rolling(n).std()`) of a window:
defined only when every entry is present. -/
def ovar (w : List (Option ℚ)) : Option ℚ :=
  if w.all Option.isSome then
    some (((vals w).map (fun x => (x - (vals w).sum / (w.length : ℚ)) ^ 2)).sum /
      ((w.length : ℚ) - 1))
  else none

/-- The length-`n` trailing window of a series ending at index `i`. -/
def windowS (n : ℕ) (s : ℕ → Option ℚ) (i : ℕ) : List (Option ℚ) :=
  (List.range n).map (fun k => s (i + 1 - n + k))

/-- Rolling mean `series.rolling(n).mean()` at index `i` of a frame with `len` rows. -/
def rollMean (n len : ℕ) (s : ℕ → Option ℚ) (i : ℕ) : Option ℚ :=
  if n ≤ i + 1 ∧ i < len then omean (windowS n s i) else none

/-- Sample variance of `series.rolling(n)` at index `i`; the source's
`rolling(n).std()` is its square root. -/
def rollVar (n len : ℕ) (s : ℕ → Option ℚ) (i : ℕ) : Option ℚ :=
  if n ≤ i + 1 ∧ i < len then ovar (windowS n s i) else none

/-- Lagged difference `series.diff(k)` at index `i`: `s[i] - s[i-k]`, `NaN` for `i < k`. -/
def diffK (k len : ℕ) (s : ℕ → Option ℚ) (i : ℕ) : Option ℚ :=
  if k ≤ i ∧ i < len then osub (s i) (s (i - k)) else none

/- ===== the data-frame columns of load_data (source lines 44-59) ===== -/

/-- The spread at one aligned date: `ZN_WEIGHT * ZN - ZT_WEIGHT * ZT`. -/
def curvePt (a b : ℚ) : ℚ := ZN_WEIGHT * a - ZT_WEIGHT * b

/-- Column `curve`: the weighted spread of the two aligned price histories.
Alignment of the two date-sorted histories is modelled by position. -/
def curve (zn zt : List ℚ) : List ℚ := List.zipWith curvePt zn zt

/-- Number of rows of the frame. -/
def nRows (zn zt : List ℚ) : ℕ := (curve zn zt).length

/-- Column `curve` read at row `i` (`NaN`-free for every valid row). -/
def curveAt (zn zt : List ℚ) (i : ℕ) : Option ℚ := (curve zn zt).get? i

/-- Column `tr = curve.diff().abs()`: the true range. -/
def tr (zn zt : List ℚ) (i : ℕ) : Option ℚ :=
  (diffK 1 (nRows zn zt) (curveAt zn zt) i).map (fun d => |d|)

/-- Column `atr = tr.rolling(20).mean()`. -/
def atr (zn zt : List ℚ) (i : ℕ) : Option ℚ :=
  rollMean 20 (nRows zn zt) (tr zn zt) i

/-- Column `ma_z = curve.rolling(Z_LOOKBACK).mean()`. -/
def ma_z (zn zt : List ℚ) (i : ℕ) : Option ℚ :=
  rollMean Z_LOOKBACK (nRows zn zt) (curveAt zn zt) i

/-- The square of column `std_z`: the sample variance of the trailing
`Z_LOOKBACK` window of `curve`. -/
def var_z (zn zt : List ℚ) (i : ℕ) : Option ℚ :=
  rollVar Z_LOOKBACK (nRows zn zt) (curveAt zn zt) i

/-- Column `std_z = curve.rolling(Z_LOOKBACK).std()`. -/
noncomputable def std_z (zn zt : List ℚ) (i : ℕ) : Option ℝ :=
  (var_z zn zt i).map (fun v => Real.sqrt (v : ℝ))

/-- Column `z = (curve - ma_z) / std_z`.  When `std_z` is `0` the window is
constant, so `curve = ma_z` there and the float result is `0.0/0.0 = NaN`. -/
noncomputable def z (zn zt : List ℚ) (i : ℕ) : Option ℝ :=
  odivR (osubR (oc (curveAt zn zt i)) (oc (ma_z zn zt i))) (std_z zn zt i)

/-- Column `ma200 = curve.rolling(200).mean()`. -/
def ma200 (zn zt : List ℚ) (i : ℕ) : Option ℚ :=
  rollMean 200 (nRows zn zt) (curveAt zn zt) i

/-- Column `ma200_slope = ma200.diff(SLOPE_LOOKBACK)`. -/
def ma200_slope (zn zt : List ℚ) (i : ℕ) : Option ℚ :=
  diffK SLOPE_LOOKBACK (nRows zn zt) (ma200 zn zt) i

/-- Column `is_lazy_grind` (source lines 54-59): the conjunction of the four
regime conditions; a comparison against `NaN` is `false`. -/
def is_lazy_grind (zn zt : List ℚ) (i : ℕ) : Bool :=
  ogtB (curveAt zn zt i) (ma200 zn zt i) &&
  oltB (atr zn zt i) (some ATR_THRESHOLD) &&
  ogtB (ma200_slope zn zt i) (some 0) &&
  oltB (ma200_slope zn zt i) (some SLOPE_CAP)

/- ===== the signal evaluator (source lines 82-89) ===== -/

/-- The discrete signal states of the entry screener. -/
inductive Signal where
  | NoTrade
  | LongFlattener
  | ShortSteepener
  | ShortSteepenerBlocked
deriving DecidableEq

/-- The entry screener: a function of the last row's `z` and `is_lazy_grind`.
With `z = NaN` both threshold comparisons are `false`, so the source's
if/elif chain falls through to `NO TRADE`. -/
noncomputable def signal (zv : Option ℝ) (grind : Bool) : Signal :=
  match zv with
  | none => Signal.NoTrade
  | some x =>
    if x < -(Z_ENTRY : ℝ) then Signal.LongFlattener
    else if (Z_ENTRY : ℝ) < x then
      (if grind then Signal.ShortSteepenerBlocked else Signal.ShortSteepener)
    else Signal.NoTrade

/- ===== the position monitor (source lines 112-139) ===== -/

/-- A caller-declared position side (`direction = 1` or `-1` in the source). -/
inductive Side where
  | Long
  | Short
deriving DecidableEq

/-- Dollar spread `curve_exec = (2 * ZN - 3 * ZT * 2) * 1000` at today's
prices. -/
def curve_exec (zn zt : ℚ) : ℚ := (2 * zn - 3 * zt * 2) * 1000

/-- Unrealized `unreal_pnl`: dollar PnL against the recorded entry price. -/
def unreal_pnl (zn zt entry : ℚ) (side : Side) : ℚ :=
  match side with
  | Side.Long => curve_exec zn zt - entry
  | Side.Short => entry - curve_exec zn zt

/-- Distance `dz_tp` in z-space from the current z to the take-profit
target (`0.0` for a long, `-1.0` for a short). -/
noncomputable def dz_tp : Side → Option ℝ → Option ℝ
  | Side.Long, z_now => osubR (some (0 : ℝ)) z_now
  | Side.Short, z_now => osubR (some (-1 : ℝ)) z_now

/-- Distance `dz_stop` in z-space from the current z to the stop
(`-Z_STOP` for a long, `+Z_STOP` for a short). -/
noncomputable def dz_stop : Side → Option ℝ → Option ℝ
  | Side.Long, z_now => osubR (some (-((Z_STOP : ℚ) : ℝ))) z_now
  | Side.Short, z_now => osubR (some ((Z_STOP : ℚ) : ℝ)) z_now

/-- Conversion ratio `exec_per_signal = curve_exec / curve_now` where `curve_now` is today's
value of the `curve` column, i.e. `curvePt` of today's prices.  When
`curvePt zn zt = 0` also `curve_exec zn zt = 0`, so the float quotient is
`0.0/0.0 = NaN`. -/
def exec_per_signal (zn zt : ℚ) : Option ℚ :=
  if curvePt zn zt = 0 then none else some (curve_exec zn zt / curvePt zn zt)

/-- Take-profit level `tp_exec = curve_exec + dz_tp * sigma * exec_per_signal`. -/
noncomputable def tp_exec (zn zt : ℚ) (z_now sigma : Option ℝ) (side : Side) : Option ℝ :=
  oaddR (some ((curve_exec zn zt : ℚ) : ℝ))
    (omulR (omulR (dz_tp side z_now) sigma) (oc (exec_per_signal zn zt)))

/-- Stop level `stop_exec = curve_exec + dz_stop * sigma * exec_per_signal`. -/
noncomputable def stop_exec (zn zt : ℚ) (z_now sigma : Option ℝ) (side : Side) : Option ℝ :=
  oaddR (some ((curve_exec zn zt : ℚ) : ℝ))
    (omulR (omulR (dz_stop side z_now) sigma) (oc (exec_per_signal zn zt)))

/- ===== concrete price histories used by the witnesses ===== -/

/-- A 210-day ZN history rising by one cent a day. -/
def znGrind : List ℚ := (List.range 210).map (fun k => (k : ℚ) / 100)

/-- The matching flat ZT history. -/
def ztGrind : List ℚ := List.replicate 210 0

/-- A ZN history giving 120 identical curve values of 10. -/
def znConst : List ℚ := List.replicate 120 10

/-- The matching flat ZT history. -/
def ztConst : List ℚ := List.replicate 120 0

/-- A 121-day ZN history: 120 zeros then a single 1. -/
def znStep : List ℚ := List.replicate 120 0 ++ [1]

/-- The matching flat ZT history. -/
def ztStep : List ℚ := List.replicate 121 0

set_option maxRecDepth 10000

lemma windowS_eq_map (n : ℕ) (s : ℕ → Option ℚ) (i : ℕ) (f : ℕ → ℚ)
    (hn : n ≤ i + 1) (h : ∀ j, i + 1 - n ≤ j → j ≤ i → s j = some (f j)) :
    windowS n s i = (List.range n).map (fun k => some (f (i + 1 - n + k))) := by
  unfold windowS
  apply List.map_congr_left
  intro k hk
  have hk' : k < n := List.mem_range.mp hk
  exact h (i + 1 - n + k) (Nat.le_add_right _ _) (by omega)

lemma sum_list_range (n : ℕ) (g : ℕ → ℚ) :
    ((List.range n).map g).sum = ∑ k in Finset.range n, g k := rfl

lemma sum_range_to_Icc (n i : ℕ) (hn : n ≤ i + 1) (f : ℕ → ℚ) :
    ∑ k in Finset.range n, f (i + 1 - n + k) = ∑ j in Finset.Icc (i + 1 - n) i, f j := by
  rw [← Nat.Ico_succ_right, Finset.sum_Ico_eq_sum_range]
  have : i + 1 - (i + 1 - n) = n := by omega
  rw [this]

lemma omean_windowS (n : ℕ) (s : ℕ → Option ℚ) (i : ℕ) (f : ℕ → ℚ)
    (hn : n ≤ i + 1) (h : ∀ j, i + 1 - n ≤ j → j ≤ i → s j = some (f j)) :
    omean (windowS n s i) = some ((∑ j in Finset.Icc (i + 1 - n) i, f j) / (n : ℚ)) := by
  rw [windowS_eq_map n s i f hn h]
  unfold omean vals
  rw [if_pos (by simp)]
  simp only [List.map_map, List.length_map, List.length_range]
  have : ((fun o : Option ℚ => o.getD 0) ∘ fun k => some (f (i + 1 - n + k))) =
      fun k => f (i + 1 - n + k) := by
    funext k; rfl
  rw [this, sum_list_range, sum_range_to_Icc n i hn]

lemma ovar_windowS (n : ℕ) (s : ℕ → Option ℚ) (i : ℕ) (f : ℕ → ℚ)
    (hn : n ≤ i + 1) (h : ∀ j, i + 1 - n ≤ j → j ≤ i → s j = some (f j)) :
    ovar (windowS n s i) = some
      ((∑ j in Finset.Icc (i + 1 - n) i,
        (f j - (∑ l in Finset.Icc (i + 1 - n) i, f l) / (n : ℚ)) ^ 2) / ((n : ℚ) - 1)) := by
  rw [windowS_eq_map n s i f hn h]
  unfold ovar vals
  rw [if_pos (by simp)]
  simp only [List.map_map, List.length_map, List.length_range]
  have hc : ((fun o : Option ℚ => o.getD 0) ∘ fun k => some (f (i + 1 - n + k))) =
      fun k => f (i + 1 - n + k) := by
    funext k; rfl
  rw [hc]
  have hmean : ((List.range n).map (fun k => f (i + 1 - n + k))).sum =
      ∑ l in Finset.Icc (i + 1 - n) i, f l := by
    rw [sum_list_range, sum_range_to_Icc n i hn]
  rw [hmean]
  simp only [Function.comp_def]
  have houter : ((List.range n).map
      (fun k => (f (i + 1 - n + k) - (∑ l in Finset.Icc (i + 1 - n) i, f l) / (n : ℚ)) ^ 2)).sum =
      ∑ j in Finset.Icc (i + 1 - n) i,
        (f j - (∑ l in Finset.Icc (i + 1 - n) i, f l) / (n : ℚ)) ^ 2 := by
    rw [sum_list_range, sum_range_to_Icc n i hn
      (fun j => (f j - (∑ l in Finset.Icc (i + 1 - n) i, f l) / (n : ℚ)) ^ 2)]
  rw [houter]

lemma osubR_none_right (a : Option ℝ) : osubR a none = none := by cases a <;> rfl

lemma osubR_none_left (b : Option ℝ) : osubR none b = none := by cases b <;> rfl

lemma omulR_none_right (a : Option ℝ) : omulR a none = none := by cases a <;> rfl

lemma omulR_none_left (b : Option ℝ) : omulR none b = none := by cases b <;> rfl

lemma oaddR_none_right (a : Option ℝ) : oaddR a none = none := by cases a <;> rfl

lemma odivR_none_left (b : Option ℝ) : odivR none b = none := by cases b <;> rfl

lemma odivR_none_right (a : Option ℝ) : odivR a none = none := by cases a <;> rfl

lemma odivR_some_zero (a : Option ℝ) : odivR a (some 0) = none := by
  cases a with
  | none => rfl
  | some x => simp [odivR]

lemma odivR_some_some (a b : ℝ) (hb : b ≠ 0) : odivR (some a) (some b) = some (a / b) := by
  simp [odivR, hb]

lemma curveAt_eq (zn zt : List ℚ) (i : ℕ) (hi : i < nRows zn zt) :
    curveAt zn zt i = some ((curve zn zt).getD i 0) := by
  unfold curveAt
  rw [List.getD_eq_getElem?_getD, List.get?_eq_getElem?, List.getElem?_eq_getElem hi]
  rfl

lemma rollMean_eq (n len : ℕ) (s : ℕ → Option ℚ) (i : ℕ) (f : ℕ → ℚ)
    (hn : n ≤ i + 1) (hlen : i < len)
    (h : ∀ j, i + 1 - n ≤ j → j ≤ i → s j = some (f j)) :
    rollMean n len s i = some ((∑ j in Finset.Icc (i + 1 - n) i, f j) / (n : ℚ)) := by
  unfold rollMean
  rw [if_pos ⟨hn, hlen⟩, omean_windowS n s i f hn h]

lemma rollVar_eq (n len : ℕ) (s : ℕ → Option ℚ) (i : ℕ) (f : ℕ → ℚ)
    (hn : n ≤ i + 1) (hlen : i < len)
    (h : ∀ j, i + 1 - n ≤ j → j ≤ i → s j = some (f j)) :
    rollVar n len s i = some
      ((∑ j in Finset.Icc (i + 1 - n) i,
        (f j - (∑ l in Finset.Icc (i + 1 - n) i, f l) / (n : ℚ)) ^ 2) / ((n : ℚ) - 1)) := by
  unfold rollVar
  rw [if_pos ⟨hn, hlen⟩, ovar_windowS n s i f hn h]

lemma tr_eq (zn zt : List ℚ) (i : ℕ) (h1 : 1 ≤ i) (hi : i < nRows zn zt) :
    tr zn zt i = some |(curve zn zt).getD i 0 - (curve zn zt).getD (i - 1) 0| := by
  unfold tr diffK
  rw [if_pos ⟨h1, hi⟩, curveAt_eq zn zt i hi,
    curveAt_eq zn zt (i - 1) (lt_of_le_of_lt (Nat.sub_le i 1) hi)]
  rfl

lemma ovar_nonneg (w : List (Option ℚ)) (v : ℚ) (hl : 2 ≤ w.length)
    (h : ovar w = some v) : 0 ≤ v := by
  unfold ovar at h
  by_cases hall : w.all Option.isSome
  · rw [if_pos hall] at h
    have hv := Option.some.inj h
    subst hv
    apply div_nonneg
    · apply List.sum_nonneg
      intro x hx
      obtain ⟨y, _, rfl⟩ := List.mem_map.mp hx
      positivity
    · have h2 : (2 : ℚ) ≤ (w.length : ℚ) := by exact_mod_cast hl
      linarith
  · rw [if_neg hall] at h
    exact absurd h (by simp)

lemma getD_zipWith (f : ℚ → ℚ → ℚ) (A B : List ℚ) (i : ℕ)
    (h1 : i < A.length) (h2 : i < B.length) :
    (List.zipWith f A B).getD i 0 = f (A.getD i 0) (B.getD i 0) := by
  have hl : i < (List.zipWith f A B).length := by
    rw [List.length_zipWith]; omega
  rw [List.getD_eq_getElem _ _ hl, List.getD_eq_getElem _ _ h1, List.getD_eq_getElem _ _ h2]
  exact List.getElem_zipWith ..

/-- Claim C5: for every aligned pair of histories and every aligned index,
`curve[i] = wA*A[i] - wB*B[i]` exactly, with the default weights 1 and 3. -/
theorem C5_spread_builder (A B : List ℚ) (hlen : A.length = B.length) (i : ℕ)
    (hi : i < A.length) :
    (curve A B).getD i 0 = ZN_WEIGHT * A.getD i 0 - ZT_WEIGHT * B.getD i 0 ∧
    ZN_WEIGHT = 1 ∧ ZT_WEIGHT = 3 := by
  refine ⟨?_, rfl, rfl⟩
  unfold curve
  rw [getD_zipWith curvePt A B i hi (hlen ▸ hi)]
  rfl

/-- Claim C5 witness. -/
theorem C5_spread_builder_witness :
    List.length [(2 : ℚ), 3] = List.length [(1 : ℚ), 5] ∧ 1 < List.length [(2 : ℚ), 3] ∧
    ((curve [2, 3] [1, 5]).getD 1 0 = ZN_WEIGHT * List.getD [2, 3] 1 0 - ZT_WEIGHT * List.getD [1, 5] 1 0 ∧
      ZN_WEIGHT = 1 ∧ ZT_WEIGHT = 3) :=
  ⟨rfl, by norm_num, C5_spread_builder [2, 3] [1, 5] rfl 1 (by norm_num)⟩

/-- Claim C4: the dollar spread `curve_exec = (2*A - 3*B*2)*1000` equals
`2000 * (1*A - 3*B) = 2000 * curve` at the same prices, so the conversion
ratio `exec_per_signal = curve_exec / curve` is the constant 2000 whenever
the signal-space curve is nonzero. -/
theorem C4_exec_proportionality (a b : ℚ) :
    curve_exec a b = REAL_WORLD_MULTIPLIER * curvePt a b ∧
    curve_exec a b = 2000 * (1 * a - 3 * b) ∧
    (curvePt a b ≠ 0 → curve_exec a b / curvePt a b = 2000 ∧
      exec_per_signal a b = some 2000) := by
  unfold curve_exec curvePt REAL_WORLD_MULTIPLIER ZN_WEIGHT ZT_WEIGHT
  refine ⟨by ring, by ring, fun h => ⟨?_, ?_⟩⟩
  · rw [div_eq_iff h]; ring
  · unfold exec_per_signal curve_exec curvePt ZN_WEIGHT ZT_WEIGHT
    rw [if_neg h]
    congr 1
    rw [div_eq_iff h]; ring

/-- Claim C4 witness. -/
theorem C4_exec_proportionality_witness :
    curvePt 110 36 ≠ 0 ∧
    curve_exec 110 36 = REAL_WORLD_MULTIPLIER * curvePt 110 36 ∧
    curve_exec 110 36 = 2000 * (1 * 110 - 3 * 36) ∧
    (curve_exec 110 36 / curvePt 110 36 = 2000 ∧ exec_per_signal 110 36 = some 2000) := by
  have hne : curvePt 110 36 ≠ 0 := by norm_num [curvePt, ZN_WEIGHT, ZT_WEIGHT]
  exact ⟨hne, (C4_exec_proportionality 110 36).1, (C4_exec_proportionality 110 36).2.1,
    (C4_exec_proportionality 110 36).2.2 hne⟩

/-- Claim C1: the signal evaluator is a deterministic function of the last
row's `(z, is_grind_regime)`: `z < -Z_ENTRY` gives `LongFlattener`;
`z > Z_ENTRY` gives `ShortSteepenerBlocked` when the grind flag is set and
`ShortSteepener` otherwise; anything else gives `NoTrade`. -/
theorem C1_signal_eval (x : ℝ) (g : Bool) :
    (x < -((Z_ENTRY : ℚ) : ℝ) → signal (some x) g = Signal.LongFlattener) ∧
    (((Z_ENTRY : ℚ) : ℝ) < x → g = true → signal (some x) g = Signal.ShortSteepenerBlocked) ∧
    (((Z_ENTRY : ℚ) : ℝ) < x → g = false → signal (some x) g = Signal.ShortSteepener) ∧
    (-((Z_ENTRY : ℚ) : ℝ) ≤ x → x ≤ ((Z_ENTRY : ℚ) : ℝ) → signal (some x) g = Signal.NoTrade) ∧
    (∀ y : Option ℝ, ∀ g2 : Bool, y = some x → g2 = g → signal y g2 = signal (some x) g) := by
  have hpos : (0 : ℝ) < ((Z_ENTRY : ℚ) : ℝ) := by norm_num [Z_ENTRY]
  refine ⟨fun h => ?_, fun h hg => ?_, fun h hg => ?_, fun h1 h2 => ?_,
    fun y g2 hy hg2 => by rw [hy, hg2]⟩
  · simp only [signal]
    rw [if_pos h]
  · subst hg
    simp only [signal]
    rw [if_neg (by linarith), if_pos h]
    rfl
  · subst hg
    simp only [signal]
    rw [if_neg (by linarith), if_pos h]
    rfl
  · simp only [signal]
    rw [if_neg (by linarith), if_neg (by linarith)]

/-- Claim C1 witness. -/
theorem C1_signal_eval_witness :
    ((-2 : ℝ) < -((Z_ENTRY : ℚ) : ℝ) ∧ signal (some (-2)) false = Signal.LongFlattener) ∧
    (((Z_ENTRY : ℚ) : ℝ) < 2 ∧ signal (some 2) true = Signal.ShortSteepenerBlocked) ∧
    (signal (some 2) false = Signal.ShortSteepener) ∧
    (-((Z_ENTRY : ℚ) : ℝ) ≤ 0 ∧ (0 : ℝ) ≤ ((Z_ENTRY : ℚ) : ℝ) ∧
      signal (some 0) true = Signal.NoTrade) := by
  have h1 : (-2 : ℝ) < -((Z_ENTRY : ℚ) : ℝ) := by norm_num [Z_ENTRY]
  have h2 : ((Z_ENTRY : ℚ) : ℝ) < 2 := by norm_num [Z_ENTRY]
  have h3 : -((Z_ENTRY : ℚ) : ℝ) ≤ 0 := by norm_num [Z_ENTRY]
  have h4 : (0 : ℝ) ≤ ((Z_ENTRY : ℚ) : ℝ) := by norm_num [Z_ENTRY]
  exact ⟨⟨h1, (C1_signal_eval (-2) false).1 h1⟩,
    ⟨h2, (C1_signal_eval 2 true).2.1 h2 rfl⟩,
    (C1_signal_eval 2 false).2.2.1 h2 rfl,
    ⟨h3, h4, (C1_signal_eval 0 true).2.2.2.1 h3 h4⟩⟩

lemma oltB_none_left (b : Option ℚ) : oltB none b = false := by cases b <;> rfl

lemma oltB_none_right (a : Option ℚ) : oltB a none = false := by cases a <;> rfl

/-- Claim C2: the grind-regime flag is `true` iff all four conditions hold
(`curve > trend`, `atr < 0.13`, `0 < trend_slope`, `trend_slope < 0.10`),
and falsifying any single condition falsifies the flag. -/
theorem C2_grind_regime (zn zt : List ℚ) (i : ℕ) (c t a s : ℚ)
    (hc : curveAt zn zt i = some c) (ht : ma200 zn zt i = some t)
    (ha : atr zn zt i = some a) (hs : ma200_slope zn zt i = some s) :
    (is_lazy_grind zn zt i = true ↔ (t < c ∧ a < ATR_THRESHOLD ∧ 0 < s ∧ s < SLOPE_CAP)) ∧
    (¬ t < c → is_lazy_grind zn zt i = false) ∧
    (¬ a < ATR_THRESHOLD → is_lazy_grind zn zt i = false) ∧
    (¬ 0 < s → is_lazy_grind zn zt i = false) ∧
    (¬ s < SLOPE_CAP → is_lazy_grind zn zt i = false) := by
  have hiff : is_lazy_grind zn zt i = true ↔
      (t < c ∧ a < ATR_THRESHOLD ∧ 0 < s ∧ s < SLOPE_CAP) := by
    unfold is_lazy_grind ogtB
    rw [hc, ht, ha, hs]
    simp [oltB, and_assoc]
  refine ⟨hiff, fun h => ?_, fun h => ?_, fun h => ?_, fun h => ?_⟩ <;>
    · rw [Bool.eq_false_iff]
      intro hT
      have hx := hiff.mp hT
      tauto

/-- Claim C10: during warm-up the outputs stay total: an undefined z-score
yields the `NoTrade` signal (both threshold comparisons are false), and an
undefined `atr`, trend or trend slope yields a grind flag that is the
defined boolean `false`. -/
theorem C10_warmup_totality (zn zt : List ℚ) (i : ℕ) (g : Bool) :
    (z zn zt i = none → signal (z zn zt i) g = Signal.NoTrade) ∧
    (atr zn zt i = none ∨ ma200 zn zt i = none ∨ ma200_slope zn zt i = none →
      is_lazy_grind zn zt i = false) := by
  constructor
  · intro h
    rw [h]
    rfl
  · intro h
    unfold is_lazy_grind ogtB
    rcases h with h | h | h <;> simp [h, oltB_none_left, oltB_none_right]

lemma osubR_some_some (x y : ℝ) : osubR (some x) (some y) = some (x - y) := rfl

lemma omulR_some_some (x y : ℝ) : omulR (some x) (some y) = some (x * y) := rfl

lemma oaddR_some_some (x y : ℝ) : oaddR (some x) (some y) = some (x + y) := rfl

lemma oc_some (q : ℚ) : oc (some q) = some ((q : ℚ) : ℝ) := rfl

lemma oc_none : oc none = none := rfl

/-- Claim C3: in position-monitor mode the z-targets are `0.0`/`-2.2` for a
long and `-1.0`/`+2.2` for a short, and the dollar exit levels are
`curve_exec + (target_z - z) * stdev * exec_per_signal` with
`exec_per_signal = curve_exec / curve`. -/
theorem C3_exit_levels (a b : ℚ) (zv s : ℝ) (h : curvePt a b ≠ 0) :
    tp_exec a b (some zv) (some s) Side.Long =
      some ((curve_exec a b : ℝ) +
        ((0 : ℝ) - zv) * s * ((curve_exec a b : ℝ) / (curvePt a b : ℝ))) ∧
    stop_exec a b (some zv) (some s) Side.Long =
      some ((curve_exec a b : ℝ) +
        (-((Z_STOP : ℚ) : ℝ) - zv) * s * ((curve_exec a b : ℝ) / (curvePt a b : ℝ))) ∧
    tp_exec a b (some zv) (some s) Side.Short =
      some ((curve_exec a b : ℝ) +
        ((-1 : ℝ) - zv) * s * ((curve_exec a b : ℝ) / (curvePt a b : ℝ))) ∧
    stop_exec a b (some zv) (some s) Side.Short =
      some ((curve_exec a b : ℝ) +
        (((Z_STOP : ℚ) : ℝ) - zv) * s * ((curve_exec a b : ℝ) / (curvePt a b : ℝ))) := by
  refine ⟨?_, ?_, ?_, ?_⟩ <;>
    · simp only [tp_exec, stop_exec, dz_tp, dz_stop, exec_per_signal, if_neg h, oc_some,
        osubR_some_some, omulR_some_some, oaddR_some_some]
      congr 1
      push_cast
      ring

/-- Claim C3 witness. -/
theorem C3_exit_levels_witness :
    curvePt 110 36 ≠ 0 ∧
    tp_exec 110 36 (some 1) (some 2) Side.Long =
      some ((curve_exec 110 36 : ℝ) +
        ((0 : ℝ) - 1) * 2 * ((curve_exec 110 36 : ℝ) / (curvePt 110 36 : ℝ))) ∧
    stop_exec 110 36 (some 1) (some 2) Side.Short =
      some ((curve_exec 110 36 : ℝ) +
        (((Z_STOP : ℚ) : ℝ) - 1) * 2 * ((curve_exec 110 36 : ℝ) / (curvePt 110 36 : ℝ))) := by
  have hne : curvePt 110 36 ≠ 0 := by norm_num [curvePt, ZN_WEIGHT, ZT_WEIGHT]
  exact ⟨hne, (C3_exit_levels 110 36 1 2 hne).1, (C3_exit_levels 110 36 1 2 hne).2.2.2⟩

/-- Claim C9: the position monitor never produces a dollar exit level through
a division by zero: whenever the pipeline's `std_z` at the current row is
undefined or zero, or the signal-space curve at the current prices is zero,
both `tp_exec` and `stop_exec` are undefined (`NaN`), not numeric. -/
theorem C9_monitor_guard (zn zt : List ℚ) (i : ℕ) (side : Side)
    (hdeg : std_z zn zt i = none ∨ std_z zn zt i = some 0 ∨
      curvePt (zn.getD i 0) (zt.getD i 0) = 0) :
    tp_exec (zn.getD i 0) (zt.getD i 0) (z zn zt i) (std_z zn zt i) side = none ∧
    stop_exec (zn.getD i 0) (zt.getD i 0) (z zn zt i) (std_z zn zt i) side = none := by
  rcases hdeg with h | h | h
  · simp only [tp_exec, stop_exec, h, omulR_none_right, omulR_none_left, oaddR_none_right]
    exact ⟨trivial, trivial⟩
  · have hz : z zn zt i = none := by
      rw [z, h, odivR_some_zero]
    cases side <;>
      simp only [tp_exec, stop_exec, hz, dz_tp, dz_stop, osubR_none_right,
        omulR_none_left, oaddR_none_right] <;>
      exact ⟨trivial, trivial⟩
  · simp only [tp_exec, stop_exec, exec_per_signal, if_pos h, oc_none, omulR_none_right,
      oaddR_none_right]
    exact ⟨trivial, trivial⟩

/-- Claim C9 witness. -/
theorem C9_monitor_guard_witness :
    std_z znConst ztConst 0 = none ∧
    tp_exec (znConst.getD 0 0) (ztConst.getD 0 0) (z znConst ztConst 0)
      (std_z znConst ztConst 0) Side.Long = none ∧
    stop_exec (znConst.getD 0 0) (ztConst.getD 0 0) (z znConst ztConst 0)
      (std_z znConst ztConst 0) Side.Long = none := by
  have hs : std_z znConst ztConst 0 = none := by
    rw [std_z, show var_z znConst ztConst 0 = none from by with_unfolding_all rfl]
    rfl
  exact ⟨hs, (C9_monitor_guard znConst ztConst 0 Side.Long (Or.inl hs)).1,
    (C9_monitor_guard znConst ztConst 0 Side.Long (Or.inl hs)).2⟩

/-- Claim C7: on 120 identical curve values the trailing stdev is zero and
the z-score is then undefined (the float division is 0.0/0.0 = NaN), never a
numeric value used for signaling: the evaluator yields NoTrade on it. -/
theorem C7_degenerate_variance :
    var_z znConst ztConst 119 = some 0 ∧
    std_z znConst ztConst 119 = some 0 ∧
    z znConst ztConst 119 = none ∧
    ∀ g : Bool, signal (z znConst ztConst 119) g = Signal.NoTrade := by
  have hv : var_z znConst ztConst 119 = some 0 := by with_unfolding_all rfl
  have hs : std_z znConst ztConst 119 = some 0 := by
    rw [std_z, hv]
    simp
  have hz : z znConst ztConst 119 = none := by
    rw [z, hs, odivR_some_zero]
  exact ⟨hv, hs, hz, fun g => by rw [hz]; rfl⟩

/-- Claim C8: the z-score is undefined while fewer than 120 curve
observations exist, and is defined at every in-range index from 120 on
whenever the trailing window's variance is nonzero. -/
theorem C8_insufficient_data (zn zt : List ℚ) (i : ℕ) :
    (i + 1 < Z_LOOKBACK → z zn zt i = none) ∧
    (Z_LOOKBACK ≤ i → i < nRows zn zt → ∀ v : ℚ, var_z zn zt i = some v → v ≠ 0 →
      (z zn zt i).isSome = true) := by
  constructor
  · intro h
    have hm : ma_z zn zt i = none := by
      rw [ma_z, rollMean, if_neg]
      intro hc
      exact absurd hc.1 (by omega)
    rw [z, hm, oc_none, osubR_none_right, odivR_none_left]
  · intro h120 hn v hv hvne
    have hcond : Z_LOOKBACK ≤ i + 1 ∧ i < nRows zn zt := ⟨by omega, hn⟩
    have hv' : ovar (windowS Z_LOOKBACK (curveAt zn zt) i) = some v := by
      rw [var_z, rollVar, if_pos hcond] at hv
      exact hv
    have hlen : (windowS Z_LOOKBACK (curveAt zn zt) i).length = Z_LOOKBACK := by
      simp [windowS]
    have hnn : 0 ≤ v := ovar_nonneg _ v (by rw [hlen]; norm_num [Z_LOOKBACK]) hv'
    have hvpos : 0 < v := lt_of_le_of_ne hnn (Ne.symm hvne)
    have hsqrt : Real.sqrt ((v : ℚ) : ℝ) ≠ 0 := by
      apply ne_of_gt
      apply Real.sqrt_pos.mpr
      exact_mod_cast hvpos
    have hs : std_z zn zt i = some (Real.sqrt ((v : ℚ) : ℝ)) := by
      rw [std_z, hv]
      rfl
    have hm : ma_z zn zt i = some
        ((∑ j in Finset.Icc (i + 1 - Z_LOOKBACK) i, (curve zn zt).getD j 0) /
          (Z_LOOKBACK : ℚ)) := by
      rw [ma_z]
      exact rollMean_eq _ _ _ _ _ hcond.1 hn
        (fun j hj1 hj2 => curveAt_eq zn zt j (lt_of_le_of_lt hj2 hn))
    rw [z, curveAt_eq zn zt i hn, hm, hs, oc_some, oc_some, osubR_some_some,
      odivR_some_some _ _ hsqrt]
    rfl

/-- Claim C8 witness. -/
theorem C8_insufficient_data_witness :
    (5 + 1 < Z_LOOKBACK ∧ z znStep ztStep 5 = none) ∧
    (Z_LOOKBACK ≤ 120 ∧ 120 < nRows znStep ztStep ∧
      var_z znStep ztStep 120 = some (1/120) ∧ ((1 : ℚ)/120) ≠ 0 ∧
      (z znStep ztStep 120).isSome = true) := by
  have ha : 5 + 1 < Z_LOOKBACK := by norm_num [Z_LOOKBACK]
  have hb : Z_LOOKBACK ≤ 120 := by norm_num [Z_LOOKBACK]
  have hc : 120 < nRows znStep ztStep := by with_unfolding_all decide
  have hd : var_z znStep ztStep 120 = some (1/120) := by with_unfolding_all decide
  have he : ((1 : ℚ)/120) ≠ 0 := by norm_num
  exact ⟨⟨ha, (C8_insufficient_data znStep ztStep 5).1 ha⟩,
    ⟨hb, hc, hd, he, (C8_insufficient_data znStep ztStep 120).2 hb hc (1/120) hd he⟩⟩

/-- Claim C6: closed forms of the rolling statistics: `tr[i] = |curve[i] -
curve[i-1]|` (undefined at 0), `atr` the trailing 20-observation mean of
`tr`, `z = (curve - mean)/stdev` with the trailing 120-observation mean and
sample standard deviation of `curve`, `trend` the trailing 200-observation
mean of `curve`, and `trend_slope[i] = trend[i] - trend[i-5]`. -/
theorem C6_rolling_stats (zn zt : List ℚ) (i : ℕ) (hi : i < nRows zn zt) :
    (tr zn zt 0 = none) ∧
    (1 ≤ i → tr zn zt i =
      some |(curve zn zt).getD i 0 - (curve zn zt).getD (i - 1) 0|) ∧
    (20 ≤ i → atr zn zt i = some ((∑ j in Finset.Icc (i + 1 - 20) i,
      |(curve zn zt).getD j 0 - (curve zn zt).getD (j - 1) 0|) / 20)) ∧
    (119 ≤ i → ma_z zn zt i =
      some ((∑ j in Finset.Icc (i + 1 - 120) i, (curve zn zt).getD j 0) / 120)) ∧
    (119 ≤ i → var_z zn zt i = some ((∑ j in Finset.Icc (i + 1 - 120) i,
      ((curve zn zt).getD j 0 -
        (∑ l in Finset.Icc (i + 1 - 120) i, (curve zn zt).getD l 0) / 120) ^ 2) / 119)) ∧
    (∀ m v : ℚ, ma_z zn zt i = some m → var_z zn zt i = some v → v ≠ 0 →
      std_z zn zt i = some (Real.sqrt ((v : ℚ) : ℝ)) ∧
      z zn zt i = some (((((curve zn zt).getD i 0 : ℚ) : ℝ) - ((m : ℚ) : ℝ)) /
        Real.sqrt ((v : ℚ) : ℝ))) ∧
    (199 ≤ i → ma200 zn zt i =
      some ((∑ j in Finset.Icc (i + 1 - 200) i, (curve zn zt).getD j 0) / 200)) ∧
    (∀ a b : ℚ, 5 ≤ i → ma200 zn zt i = some a → ma200 zn zt (i - 5) = some b →
      ma200_slope zn zt i = some (a - b)) := by
  refine ⟨?_, fun h1 => tr_eq zn zt i h1 hi, ?_, ?_, ?_, ?_, ?_, ?_⟩
  · rw [tr, diffK, if_neg (by simp)]
    rfl
  · intro h20
    rw [atr, rollMean_eq 20 (nRows zn zt) (tr zn zt) i
      (fun j => |(curve zn zt).getD j 0 - (curve zn zt).getD (j - 1) 0|) (by omega) hi
      (fun j hj1 hj2 => tr_eq zn zt j (by omega) (lt_of_le_of_lt hj2 hi))]
    norm_num
  · intro h119
    rw [ma_z, rollMean_eq Z_LOOKBACK (nRows zn zt) (curveAt zn zt) i
      (fun j => (curve zn zt).getD j 0) (by unfold Z_LOOKBACK; omega) hi
      (fun j hj1 hj2 => curveAt_eq zn zt j (lt_of_le_of_lt hj2 hi))]
    norm_num [Z_LOOKBACK]
  · intro h119
    rw [var_z, rollVar_eq Z_LOOKBACK (nRows zn zt) (curveAt zn zt) i
      (fun j => (curve zn zt).getD j 0) (by unfold Z_LOOKBACK; omega) hi
      (fun j hj1 hj2 => curveAt_eq zn zt j (lt_of_le_of_lt hj2 hi))]
    norm_num [Z_LOOKBACK]
  · intro m v hm hv hvne
    have hcond : Z_LOOKBACK ≤ i + 1 ∧ i < nRows zn zt := by
      by_contra hc
      rw [var_z, rollVar, if_neg hc] at hv
      exact absurd hv (by simp)
    have hv' : ovar (windowS Z_LOOKBACK (curveAt zn zt) i) = some v := by
      rw [var_z, rollVar, if_pos hcond] at hv
      exact hv
    have hlen : (windowS Z_LOOKBACK (curveAt zn zt) i).length = Z_LOOKBACK := by
      simp [windowS]
    have hnn : 0 ≤ v := ovar_nonneg _ v (by rw [hlen]; norm_num [Z_LOOKBACK]) hv'
    have hsqrt : Real.sqrt ((v : ℚ) : ℝ) ≠ 0 := by
      apply ne_of_gt
      apply Real.sqrt_pos.mpr
      exact_mod_cast lt_of_le_of_ne hnn (Ne.symm hvne)
    have hs : std_z zn zt i = some (Real.sqrt ((v : ℚ) : ℝ)) := by
      rw [std_z, hv]
      rfl
    refine ⟨hs, ?_⟩
    rw [z, curveAt_eq zn zt i hi, hm, hs, oc_some, oc_some, osubR_some_some,
      odivR_some_some _ _ hsqrt]
  · intro h199
    rw [ma200, rollMean_eq 200 (nRows zn zt) (curveAt zn zt) i
      (fun j => (curve zn zt).getD j 0) (by omega) hi
      (fun j hj1 hj2 => curveAt_eq zn zt j (lt_of_le_of_lt hj2 hi))]
    norm_num
  · intro a b h5 ha hb
    rw [ma200_slope, diffK]
    simp only [SLOPE_LOOKBACK]
    rw [if_pos ⟨h5, hi⟩, ha, hb]
    rfl

/-- Claim C6 witness. -/
theorem C6_rolling_stats_witness :
    204 < nRows znGrind ztGrind ∧
    tr znGrind ztGrind 0 = none ∧
    tr znGrind ztGrind 204 =
      some |(curve znGrind ztGrind).getD 204 0 - (curve znGrind ztGrind).getD (204 - 1) 0| ∧
    atr znGrind ztGrind 204 = some ((∑ j in Finset.Icc (204 + 1 - 20) 204,
      |(curve znGrind ztGrind).getD j 0 - (curve znGrind ztGrind).getD (j - 1) 0|) / 20) ∧
    ma_z znGrind ztGrind 204 =
      some ((∑ j in Finset.Icc (204 + 1 - 120) 204, (curve znGrind ztGrind).getD j 0) / 120) ∧
    var_z znGrind ztGrind 204 = some ((∑ j in Finset.Icc (204 + 1 - 120) 204,
      ((curve znGrind ztGrind).getD j 0 -
        (∑ l in Finset.Icc (204 + 1 - 120) 204, (curve znGrind ztGrind).getD l 0) / 120) ^ 2) /
        119) ∧
    ma_z znGrind ztGrind 204 = some (289 / 200) ∧
    var_z znGrind ztGrind 204 = some (121 / 1000) ∧
    ((121 / 1000 : ℚ) ≠ 0) ∧
    std_z znGrind ztGrind 204 = some (Real.sqrt ((121 / 1000 : ℚ) : ℝ)) ∧
    z znGrind ztGrind 204 = some (((((curve znGrind ztGrind).getD 204 0 : ℚ) : ℝ) -
      ((289 / 200 : ℚ) : ℝ)) / Real.sqrt ((121 / 1000 : ℚ) : ℝ)) ∧
    ma200 znGrind ztGrind 204 =
      some ((∑ j in Finset.Icc (204 + 1 - 200) 204, (curve znGrind ztGrind).getD j 0) / 200) ∧
    ma200 znGrind ztGrind 204 = some (209 / 200) ∧
    ma200 znGrind ztGrind (204 - 5) = some (199 / 200) ∧
    ma200_slope znGrind ztGrind 204 = some (209 / 200 - 199 / 200) := by
  have hi : 204 < nRows znGrind ztGrind := by with_unfolding_all decide
  have h := C6_rolling_stats znGrind ztGrind 204 hi
  have hm : ma_z znGrind ztGrind 204 = some (289 / 200) := by with_unfolding_all decide
  have hv : var_z znGrind ztGrind 204 = some (121 / 1000) := by with_unfolding_all decide
  have hvne : ((121 / 1000 : ℚ)) ≠ 0 := by norm_num
  have ha : ma200 znGrind ztGrind 204 = some (209 / 200) := by with_unfolding_all decide
  have hb : ma200 znGrind ztGrind (204 - 5) = some (199 / 200) := by with_unfolding_all decide
  have hf := h.2.2.2.2.2.1 (289 / 200) (121 / 1000) hm hv hvne
  exact ⟨hi, h.1, h.2.1 (by norm_num), h.2.2.1 (by norm_num), h.2.2.2.1 (by norm_num),
    h.2.2.2.2.1 (by norm_num), hm, hv, hvne, hf.1, hf.2,
    h.2.2.2.2.2.2.1 (by norm_num), ha, hb,
    h.2.2.2.2.2.2.2 (209 / 200) (199 / 200) (by norm_num) ha hb⟩

/-- Claim C2 witness. -/
theorem C2_grind_regime_witness :
    curveAt znGrind ztGrind 204 = some (51 / 25) ∧
    ma200 znGrind ztGrind 204 = some (209 / 200) ∧
    atr znGrind ztGrind 204 = some (1 / 100) ∧
    ma200_slope znGrind ztGrind 204 = some (1 / 20) ∧
    (is_lazy_grind znGrind ztGrind 204 = true ↔
      ((209 / 200 : ℚ) < 51 / 25 ∧ (1 / 100 : ℚ) < ATR_THRESHOLD ∧
        (0 : ℚ) < 1 / 20 ∧ (1 / 20 : ℚ) < SLOPE_CAP)) ∧
    is_lazy_grind znGrind ztGrind 204 = true := by
  have hc : curveAt znGrind ztGrind 204 = some (51 / 25) := by with_unfolding_all decide
  have ht : ma200 znGrind ztGrind 204 = some (209 / 200) := by with_unfolding_all decide
  have ha : atr znGrind ztGrind 204 = some (1 / 100) := by with_unfolding_all decide
  have hs : ma200_slope znGrind ztGrind 204 = some (1 / 20) := by with_unfolding_all decide
  have hiff := (C2_grind_regime znGrind ztGrind 204 (51 / 25) (209 / 200) (1 / 100) (1 / 20)
    hc ht ha hs).1
  exact ⟨hc, ht, ha, hs, hiff,
    hiff.mpr (by norm_num [ATR_THRESHOLD, SLOPE_CAP])⟩

/-- Claim C10 witness. -/
theorem C10_warmup_totality_witness :
    (z [1] [2] 0 = none ∧ signal (z [1] [2] 0) true = Signal.NoTrade) ∧
    (atr [1] [2] 0 = none ∧ is_lazy_grind [1] [2] 0 = false) := by
  have hz : z [1] [2] 0 = none := by with_unfolding_all rfl
  have ha : atr [1] [2] 0 = none := by with_unfolding_all rfl
  exact ⟨⟨hz, (C10_warmup_totality [1] [2] 0 true).1 hz⟩,
    ⟨ha, (C10_warmup_totality [1] [2] 0 true).2 (Or.inl ha)⟩⟩
